import Mathlib

/-!
Shallow embedding of the contourguessr picture hydrator (src/main.go).

The pure data transformations and the per-region reconcile loop are
translated from the source. Effects are made explicit values: the
snapshot file is an optional list of decoded entries (none models a
missing file), and the remote service is an oracle handed to the loop.
The fallible variant models a fetch failure aborting the process
mid-run, as log.Fatal does in the source.
-/

set_option autoImplicit false

/-- One available rendition of a photo, as persisted (source: PictureSize). -/
structure PictureSize where
  label : String
  width : Int
  height : Int
  source : String
deriving DecidableEq

/-- The persisted record for one photo (source: Entry). -/
structure Entry where
  id : String
  sizes : List PictureSize
  ownerUsername : String
  ownerIcon : String
  title : String
  description : String
  dateTaken : String
  latitude : String
  longitude : String
  locationAccuracy : String
  locationDescription : String
  webpage : String
deriving DecidableEq

/-- A nested field carrying one text value (the payload shape with a lone content member). -/
structure TextContent where
  content : String
deriving DecidableEq

/-- Owner block of the raw getInfo payload. -/
structure RawOwner where
  nsid : String
  username : String
  iconServer : String
  iconFarm : Int
deriving DecidableEq

/-- Dates block of the raw getInfo payload. -/
structure RawDates where
  taken : String
deriving DecidableEq

/-- Location block of the raw getInfo payload. -/
structure RawLocation where
  latitude : String
  longitude : String
  accuracy : String
  neighborhood : TextContent
  locality : TextContent
  county : TextContent
  region : TextContent
  country : TextContent
deriving DecidableEq

/-- One element of the url list in the raw getInfo payload. -/
structure RawURL where
  type : String
  content : String
deriving DecidableEq

/-- The urls block of the raw getInfo payload. -/
structure RawURLs where
  url : List RawURL
deriving DecidableEq

/-- The photo object of the raw getInfo payload. -/
structure RawPhoto where
  owner : RawOwner
  title : TextContent
  description : TextContent
  dates : RawDates
  location : RawLocation
  urls : RawURLs
deriving DecidableEq

/-- The remote service as seen by createEntry: the decoded getInfo and
getSizes payloads returned for a given id. -/
structure Env where
  fetchInfo : String → RawPhoto
  fetchSizes : String → List PictureSize

/-- Translation of createEntry: obtain the info and size payloads for one id
and build the flat Entry, applying the derivation rules of the source. -/
def createEntry (env : Env) (id : String) : Entry :=
  let info := env.fetchInfo id
  let sizes := env.fetchSizes id
  let ownerIcon :=
    if info.owner.iconServer ≠ "0" then
      "https://farm" ++ toString info.owner.iconFarm ++ ".staticflickr.com/" ++
        info.owner.iconServer ++ "/buddyicons/" ++ info.owner.nsid ++ ".jpg"
    else
      "https://www.flickr.com/images/buddyicon.gif"
  let potentialLocationSegments : List String :=
    [info.location.neighborhood.content, info.location.locality.content,
      info.location.county.content, info.location.region.content,
      info.location.country.content]
  let locationSegments := potentialLocationSegments.filter (fun segment => segment != "")
  let locationDescription := String.intercalate (", ") locationSegments
  let webpage :=
    match info.urls.url with
    | [] => "https://flickr.com/photos/" ++ info.owner.nsid
    | u :: _ => u.content
  { id := id
    sizes := sizes
    ownerUsername := info.owner.username
    ownerIcon := ownerIcon
    title := info.title.content
    description := info.description.content
    dateTaken := info.dates.taken
    latitude := info.location.latitude
    longitude := info.location.longitude
    locationAccuracy := info.location.accuracy
    locationDescription := locationDescription
    webpage := webpage }

/-- Go map assignment entries[e.Id] = e: a later binding overwrites an earlier one. -/
def mapAssign (m : String → Option Entry) (e : Entry) : String → Option Entry :=
  fun id => if id = e.id then some e else m id

/-- The id-to-entry map built exactly as the decode loop of parseExisting
builds it, one assignment per decoded record in file order. -/
def buildMap (es : List Entry) : String → Option Entry :=
  es.foldl mapAssign (fun _ => none)

/-- The decoded content of a snapshot file; none models a missing file. -/
def fileEntries : Option (List Entry) → List Entry
  | none => []
  | some es => es

/-- Translation of parseExisting: a missing file yields the empty map (the
nil Go map), an existing file yields the map built from its records. -/
def parseExisting : Option (List Entry) → String → Option Entry
  | none => fun _ => none
  | some es => buildMap es

/-- The last entry of the list whose id matches, if any: the reference
lookup the foldl-built map is proved to agree with. -/
def lookupLast : List Entry → String → Option Entry
  | [], _ => none
  | e :: rest, id =>
    match lookupLast rest id with
    | some x => some x
    | none => if id = e.id then some e else none

/-- The reconcile loop of processRegion over the ingest ids: skip ids bound
in the map, append a fresh entry for the others. Returns the entries
appended to the file, in loop order, and the ids fetched. -/
def processRegionLoop (env : Env) (m : String → Option Entry) :
    List String → List Entry × List String
  | [] => ([], [])
  | id :: rest =>
    match m id with
    | some _ => processRegionLoop env m rest
    | none =>
      let r := processRegionLoop env m rest
      (createEntry env id :: r.1, id :: r.2)

/-- Translation of processRegion: the snapshot file is opened with
O_CREATE and O_APPEND, the existing entries are read into a map, and the
loop appends a fresh entry for every ingest id absent from that map.
Returns the final file content and the list of fetched ids. -/
def processRegion (env : Env) (file : Option (List Entry)) (ids : List String) :
    List Entry × List String :=
  let r := processRegionLoop env (parseExisting file) ids
  (fileEntries file ++ r.1, r.2)

/-- The reconcile loop under a fallible fetch: none models log.Fatal
aborting the process at that id, leaving only the entries already
appended; the Bool records whether the run completed. -/
def runFallible (fetch : String → Option Entry) (m : String → Option Entry) :
    List String → List Entry × Bool
  | [] => ([], true)
  | id :: rest =>
    match m id with
    | some _ => runFallible fetch m rest
    | none =>
      match fetch id with
      | none => ([], false)
      | some e =>
        let r := runFallible fetch m rest
        (e :: r.1, r.2)

/-- processRegion under the fallible fetch model: the final content of the
append-mode file, and whether the run completed. -/
def processRegionFallible (fetch : String → Option Entry) (file : Option (List Entry))
    (ids : List String) : List Entry × Bool :=
  let r := runFallible fetch (parseExisting file) ids
  (fileEntries file ++ r.1, r.2)

/-- A concrete getInfo payload with every text field empty and the default
icon marker, for evaluating the pipeline at concrete inputs. -/
def testPhoto : RawPhoto :=
  { owner := { nsid := "", username := "", iconServer := "0", iconFarm := 0 }
    title := { content := "" }
    description := { content := "" }
    dates := { taken := "" }
    location :=
      { latitude := "", longitude := "", accuracy := ""
        neighborhood := { content := "" }, locality := { content := "" }
        county := { content := "" }, region := { content := "" }
        country := { content := "" } }
    urls := { url := [] } }

/-- A concrete environment answering every id with the empty payload. -/
def envC : Env := { fetchInfo := fun _ => testPhoto, fetchSizes := fun _ => [] }

/-- The entry the concrete environment produces for a given id. -/
def entryFor (id : String) : Entry := createEntry envC id

/-- A payload like testPhoto but with one url element, for the webpage rule. -/
def photoU : RawPhoto :=
  { testPhoto with urls := { url := [{ type := "photopage", content := "https://e.com/p" }] } }

/-- A concrete environment whose payloads carry one url element. -/
def envU : Env := { fetchInfo := fun _ => photoU, fetchSizes := fun _ => [] }

/-- A fallible fetch that succeeds on id A and fails on every other id. -/
def fetchCx : String → Option Entry :=
  fun id => if id = "A" then some (entryFor ("A")) else none

/-- Two distinct records sharing one identifier, for the duplicate-id case. -/
def dupFirst : Entry := { entryFor ("X") with title := "first" }

/-- The later of the two records sharing the identifier. -/
def dupSecond : Entry := { entryFor ("X") with title := "second" }

/-- Folding map assignments over a list looks up the last matching entry,
falling back to the initial map. -/
theorem foldl_mapAssign (es : List Entry) (m : String → Option Entry) (id : String) :
    es.foldl mapAssign m id =
      match lookupLast es id with
      | some e => some e
      | none => m id := by
  induction es generalizing m with
  | nil => rfl
  | cons e rest ih =>
    simp only [List.foldl_cons, lookupLast]
    rw [ih]
    cases h : lookupLast rest id with
    | some x => rfl
    | none =>
      simp only [mapAssign]
      by_cases hid : id = e.id <;> simp [hid]

/-- The map parseExisting builds agrees with last-match lookup. -/
theorem parseExisting_some (es : List Entry) (id : String) :
    parseExisting (some es) id = lookupLast es id := by
  show buildMap es id = _
  rw [buildMap, foldl_mapAssign]
  cases lookupLast es id <;> rfl

/-- A successful lookup returns an element of the list bearing the id. -/
theorem lookupLast_mem (es : List Entry) (id : String) (e : Entry)
    (h : lookupLast es id = some e) : e ∈ es ∧ e.id = id := by
  induction es with
  | nil => simp [lookupLast] at h
  | cons a rest ih =>
    simp only [lookupLast] at h
    cases hr : lookupLast rest id with
    | some x =>
      rw [hr] at h
      injection h with h2
      subst h2
      rcases ih hr with ⟨hm, hid⟩
      exact ⟨List.mem_cons_of_mem _ hm, hid⟩
    | none =>
      rw [hr] at h
      by_cases hid : id = a.id
      · rw [if_pos hid] at h
        injection h with h2
        subst h2
        exact ⟨List.mem_cons_self _ _, hid.symm⟩
      · rw [if_neg hid] at h
        cases h

/-- The lookup fails exactly when no entry of the list bears the id. -/
theorem lookupLast_eq_none_iff (es : List Entry) (id : String) :
    lookupLast es id = none ↔ ∀ e ∈ es, e.id ≠ id := by
  induction es with
  | nil => simp [lookupLast]
  | cons a rest ih =>
    simp only [lookupLast, List.forall_mem_cons]
    cases hr : lookupLast rest id with
    | some x =>
      refine iff_of_false (by simp) ?_
      rcases lookupLast_mem rest id x hr with ⟨hm, hid⟩
      intro hc
      exact hc.2 x hm hid
    | none =>
      by_cases hid : id = a.id
      · rw [if_pos hid]
        refine iff_of_false (by simp) ?_
        intro hc
        exact hc.1 hid.symm
      · rw [if_neg hid]
        exact iff_of_true rfl ⟨fun h2 => hid h2.symm, ih.mp hr⟩

/-- A lookup succeeds at the id of any member of the list. -/
theorem lookupLast_isSome_of_mem (es : List Entry) (id : String) (e : Entry)
    (hmem : e ∈ es) (hid : e.id = id) : (lookupLast es id).isSome = true := by
  cases h : lookupLast es id with
  | some x => rfl
  | none =>
    exact absurd hid ((lookupLast_eq_none_iff es id).mp h e hmem)

/-- The fresh entry carries the id it was created for. -/
theorem createEntry_id (env : Env) (id : String) : (createEntry env id).id = id := rfl

/-- Mapping entry creation and then projecting the id is the identity. -/
theorem map_createEntry_id (env : Env) (l : List String) :
    (l.map (createEntry env)).map Entry.id = l := by
  induction l with
  | nil => rfl
  | cons a t ih => simp [ih, createEntry_id]

/-- The reconcile loop appends exactly one fresh entry per id unbound in
the map, in ingest order, and fetches exactly those ids. -/
theorem processRegionLoop_eq (env : Env) (m : String → Option Entry) (ids : List String) :
    processRegionLoop env m ids =
      ((ids.filter fun id => (m id).isNone).map (createEntry env),
        ids.filter fun id => (m id).isNone) := by
  induction ids with
  | nil => rfl
  | cons id rest ih =>
    simp only [processRegionLoop]
    cases h : m id with
    | some e => simp [h, ih, List.filter_cons]
    | none => simp [h, ih, List.filter_cons]

/-- When the fetch succeeds on every unbound id, the fallible loop appends
one entry per unbound id, in order, and reports completion. -/
theorem runFallible_success (fetch : String → Option Entry) (g : String → Entry)
    (m : String → Option Entry) (ids : List String)
    (h : ∀ id ∈ ids, m id = none → fetch id = some (g id)) :
    runFallible fetch m ids =
      ((ids.filter fun id => (m id).isNone).map g, true) := by
  induction ids with
  | nil => rfl
  | cons id rest ih =>
    have hrest : ∀ i ∈ rest, m i = none → fetch i = some (g i) :=
      fun i hi => h i (List.mem_cons_of_mem _ hi)
    simp only [runFallible]
    cases hm : m id with
    | some e => simp [hm, ih hrest, List.filter_cons]
    | none =>
      have hf := h id (List.mem_cons_self _ _) hm
      simp [hm, hf, ih hrest, List.filter_cons]

/-- C1 counterexample: with a prior snapshot holding the record for id B and
ingest list A, B (B a HIT, A a MISS), the persisted record order is B, A,
not the ingest order A, B: the record at position 0 is not the Entry for
the first ingest id. -/
theorem c1_order_counterexample :
    ((processRegion envC (some [entryFor ("B")]) ["A", "B"]).1).map Entry.id ≠
      ["A", "B"] := by decide

/-- C1 amended: the snapshot after a run is the prior file content followed
by one fresh Entry per MISS occurrence, in ingest order; when no prior
snapshot exists, the record at position i is the Entry for the i-th ingest
id. -/
theorem c1_order_amended (env : Env) (file : Option (List Entry)) (ids : List String) :
    (processRegion env file ids).1 =
      fileEntries file ++
        ((ids.filter fun id => (parseExisting file id).isNone).map (createEntry env)) ∧
    (processRegion env none ids).1 = ids.map (createEntry env) := by
  constructor
  · simp [processRegion, processRegionLoop_eq]
  · have hall : ids.filter (fun id => (parseExisting none id).isNone) = ids :=
      List.filter_eq_self.mpr (fun a _ => rfl)
    simp [processRegion, processRegionLoop_eq, fileEntries, hall]

/-- A run over a snapshot that already binds every ingest id appends
nothing and fetches nothing. -/
theorem processRegion_all_hit (env : Env) (f : List Entry) (ids : List String)
    (hall : ∀ id ∈ ids, (parseExisting (some f) id).isSome = true) :
    processRegion env (some f) ids = (f, []) := by
  have hfilter : ids.filter (fun id => (parseExisting (some f) id).isNone) = [] := by
    rw [List.filter_eq_nil_iff]
    intro a ha hcon
    have h2 := hall a ha
    rw [Option.isNone_iff_eq_none] at hcon
    rw [hcon] at h2
    exact absurd h2 (by simp)
  simp [processRegion, processRegionLoop_eq, hfilter, fileEntries]

/-- Every ingest id is bound in the map read from the snapshot a run has
just produced. -/
theorem processRegion_covers (env : Env) (file : Option (List Entry)) (ids : List String) :
    ∀ id ∈ ids, (parseExisting (some (processRegion env file ids).1) id).isSome = true := by
  intro id hid
  rw [parseExisting_some]
  cases h : parseExisting file id with
  | some e =>
    cases file with
    | none => exact absurd h (by simp [parseExisting])
    | some es =>
      rw [parseExisting_some] at h
      rcases lookupLast_mem es id e h with ⟨hm, hide⟩
      refine lookupLast_isSome_of_mem _ id e ?_ hide
      simp only [processRegion, fileEntries]
      exact List.mem_append_left _ hm
  | none =>
    refine lookupLast_isSome_of_mem _ id (createEntry env id) ?_ (createEntry_id env id)
    simp only [processRegion, processRegionLoop_eq]
    refine List.mem_append_right _ ?_
    exact List.mem_map_of_mem _ (List.mem_filter.mpr ⟨hid, by simp [h]⟩)

/-- C3: running a region a second time over the snapshot produced by the
first run, with the same ingest list, leaves the snapshot identical and
fetches nothing, whatever the second run's remote service would answer. -/
theorem c3_idempotent (env env2 : Env) (file : Option (List Entry)) (ids : List String) :
    processRegion env2 (some (processRegion env file ids).1) ids =
      ((processRegion env file ids).1, []) :=
  processRegion_all_hit env2 (processRegion env file ids).1 ids
    (processRegion_covers env file ids)

/-- C5: an id bound in the map read at the start of the run is never
fetched during that run, and when every ingest id is bound the run fetches
nothing at all. -/
theorem c5_no_refetch (env : Env) (file : Option (List Entry)) (ids : List String) :
    (∀ id, (parseExisting file id).isSome = true → id ∉ (processRegion env file ids).2) ∧
      ((∀ id ∈ ids, (parseExisting file id).isSome = true) →
        (processRegion env file ids).2 = []) := by
  constructor
  · intro id hsome hmem
    simp only [processRegion, processRegionLoop_eq] at hmem
    have hnone := (List.mem_filter.mp hmem).2
    rw [Option.isNone_iff_eq_none] at hnone
    rw [hnone] at hsome
    exact absurd hsome (by simp)
  · intro hall
    simp only [processRegion, processRegionLoop_eq]
    rw [List.filter_eq_nil_iff]
    intro a ha hcon
    have h2 := hall a ha
    rw [Option.isNone_iff_eq_none] at hcon
    rw [hcon] at h2
    exact absurd h2 (by simp)

/-- C5 witness: a region whose one ingest id is already in the snapshot
performs no fetch. -/
theorem c5_no_refetch_witness :
    (processRegion envC (some [entryFor ("B")]) ["B"]).2 = [] :=
  (c5_no_refetch envC (some [entryFor ("B")]) ["B"]).2 (by decide)

/-- C6: a missing snapshot file reads as the empty mapping, every ingest id
is a MISS, and the run builds the full snapshot from scratch in ingest
order. -/
theorem c6_first_run (env : Env) (ids : List String) :
    (∀ id, parseExisting none id = none) ∧
      processRegion env none ids = (ids.map (createEntry env), ids) := by
  constructor
  · intro id
    rfl
  · have hall : ids.filter (fun id => (parseExisting none id).isNone) = ids :=
      List.filter_eq_self.mpr (fun a _ => rfl)
    simp [processRegion, processRegionLoop_eq, fileEntries, hall]

/-- C2 counterexample: with a prior snapshot holding the record for id P
and ingest list A, B, a fetch failure at B leaves the file holding P's
record plus A's freshly appended record: the run fails yet the visible
snapshot differs from the previously valid content. -/
theorem c2_atomic_counterexample :
    (processRegionFallible fetchCx (some [entryFor ("P")]) ["A", "B"]).2 = false ∧
      (processRegionFallible fetchCx (some [entryFor ("P")]) ["A", "B"]).1 ≠
        [entryFor ("P")] := by decide

/-- C2 amended: the prior snapshot content is always preserved as an
unmodified leading segment of the file (records appended before a failure
may follow it, and the failure is reported), and when every MISS fetch
succeeds the run completes with the full ordered sequence written. -/
theorem c2_atomic_amended (fetch : String → Option Entry) (g : String → Entry)
    (file : Option (List Entry)) (ids : List String) :
    (∃ t, (processRegionFallible fetch file ids).1 = fileEntries file ++ t) ∧
      ((∀ id ∈ ids, parseExisting file id = none → fetch id = some (g id)) →
        processRegionFallible fetch file ids =
          (fileEntries file ++
            ((ids.filter fun id => (parseExisting file id).isNone).map g), true)) := by
  constructor
  · exact ⟨(runFallible fetch (parseExisting file) ids).1, rfl⟩
  · intro h
    simp only [processRegionFallible,
      runFallible_success fetch g (parseExisting file) ids h]

/-- C2 amended witness: with every fetch succeeding, a first run writes the
full snapshot and reports completion. -/
theorem c2_atomic_amended_witness :
    processRegionFallible (fun id => some (entryFor id)) none ["A"] =
      (fileEntries none ++
        (((["A"] : List String).filter fun id => (parseExisting none id).isNone).map
          entryFor), true) :=
  (c2_atomic_amended (fun id => some (entryFor id)) entryFor none ["A"]).2
    (fun _ _ _ => rfl)

/-- C4 counterexample: a first run over the ingest list a, a fetches the id
twice and appends two records bearing the identifier a. -/
theorem c4_unique_counterexample :
    ((processRegion envC none ["a", "a"]).1.map Entry.id) = ["a", "a"] ∧
      ¬ ((processRegion envC none ["a", "a"]).1.map Entry.id).Nodup := by decide

/-- C4 amended: when the prior snapshot's identifiers are unique and the
ingest list has no duplicates, the snapshot after the run has at most one
record per identifier; a duplicated MISS id would append one record per
occurrence. -/
theorem c4_unique_amended (env : Env) (file : Option (List Entry)) (ids : List String)
    (hfile : ((fileEntries file).map Entry.id).Nodup) (hids : ids.Nodup) :
    (((processRegion env file ids).1).map Entry.id).Nodup := by
  have hchar : (processRegion env file ids).1 =
      fileEntries file ++
        ((ids.filter fun id => (parseExisting file id).isNone).map (createEntry env)) := by
    simp [processRegion, processRegionLoop_eq]
  rw [hchar, List.map_append, map_createEntry_id, List.nodup_append]
  refine ⟨hfile, hids.filter _, ?_⟩
  intro a ha hb
  rcases List.mem_map.mp ha with ⟨e, hem, heid⟩
  have hnone := (List.mem_filter.mp hb).2
  rw [Option.isNone_iff_eq_none] at hnone
  cases file with
  | none => simp [fileEntries] at hem
  | some es =>
    rw [parseExisting_some] at hnone
    exact absurd heid ((lookupLast_eq_none_iff es a).mp hnone e hem)

/-- C4 amended witness: a duplicate-free first run yields unique
identifiers in the snapshot. -/
theorem c4_unique_amended_witness :
    (((processRegion envC none ["a", "b"]).1).map Entry.id).Nodup :=
  c4_unique_amended envC none ["a", "b"] (by decide) (by decide)

/-- C7: the owner icon is the fixed default reference exactly when the
payload's icon-server field is the string 0, and otherwise is composed
from the icon-farm number, the icon-server value and the owner id. -/
theorem c7_owner_icon (env : Env) (id : String) :
    (createEntry env id).ownerIcon =
      if (env.fetchInfo id).owner.iconServer = "0" then
        "https://www.flickr.com/images/buddyicon.gif"
      else
        "https://farm" ++ toString (env.fetchInfo id).owner.iconFarm ++
          ".staticflickr.com/" ++ (env.fetchInfo id).owner.iconServer ++
          "/buddyicons/" ++ (env.fetchInfo id).owner.nsid ++ ".jpg" := by
  by_cases h : (env.fetchInfo id).owner.iconServer = "0" <;> simp [createEntry, h]

/-- C8: the location description is the comma-space join of the non-empty
segments taken in the order neighborhood, locality, county, region,
country, and is empty when all five segments are empty. -/
theorem c8_location_description (env : Env) (id : String) :
    (createEntry env id).locationDescription =
      String.intercalate (", ")
        (([(env.fetchInfo id).location.neighborhood.content,
            (env.fetchInfo id).location.locality.content,
            (env.fetchInfo id).location.county.content,
            (env.fetchInfo id).location.region.content,
            (env.fetchInfo id).location.country.content]).filter
          (fun segment => segment != "")) ∧
      (((env.fetchInfo id).location.neighborhood.content = "" ∧
          (env.fetchInfo id).location.locality.content = "" ∧
          (env.fetchInfo id).location.county.content = "" ∧
          (env.fetchInfo id).location.region.content = "" ∧
          (env.fetchInfo id).location.country.content = "") →
        (createEntry env id).locationDescription = "") := by
  constructor
  · rfl
  · rintro ⟨h1, h2, h3, h4, h5⟩
    have hfirst : (createEntry env id).locationDescription =
        String.intercalate (", ")
          (([(env.fetchInfo id).location.neighborhood.content,
              (env.fetchInfo id).location.locality.content,
              (env.fetchInfo id).location.county.content,
              (env.fetchInfo id).location.region.content,
              (env.fetchInfo id).location.country.content]).filter
            (fun segment => segment != "")) := rfl
    rw [hfirst, h1, h2, h3, h4, h5]
    rfl

/-- C8 witness: a payload with all five location segments empty yields the
empty location description. -/
theorem c8_location_description_witness :
    (createEntry envC ("x")).locationDescription = "" :=
  (c8_location_description envC ("x")).2 ⟨rfl, rfl, rfl, rfl, rfl⟩

/-- C9: the webpage is the first url element's content when the payload
lists at least one url, and otherwise the fixed profile prefix followed by
the owner id. -/
theorem c9_webpage (env : Env) (id : String) :
    ((env.fetchInfo id).urls.url = [] →
        (createEntry env id).webpage =
          "https://flickr.com/photos/" ++ (env.fetchInfo id).owner.nsid) ∧
      (∀ u rest, (env.fetchInfo id).urls.url = u :: rest →
        (createEntry env id).webpage = u.content) := by
  constructor
  · intro h
    simp [createEntry, h]
  · intro u rest h
    simp [createEntry, h]

/-- C9 witness: an empty url list synthesizes the profile reference, and a
payload with one url element passes its content through verbatim. -/
theorem c9_webpage_witness :
    (createEntry envC ("x")).webpage =
        "https://flickr.com/photos/" ++ (envC.fetchInfo ("x")).owner.nsid ∧
      (createEntry envU ("x")).webpage = "https://e.com/p" :=
  ⟨(c9_webpage envC ("x")).1 rfl,
    (c9_webpage envU ("x")).2 { type := "photopage", content := "https://e.com/p" } [] rfl⟩

/-- C10: when the decoded snapshot contains several records bearing one
identifier, the map parseExisting builds binds that identifier to the last
such record in file order, without reporting an error. -/
theorem c10_last_wins (es1 es2 : List Entry) (e : Entry) (id : String)
    (h1 : e.id = id) (h2 : ∀ x ∈ es2, x.id ≠ id) :
    parseExisting (some (es1 ++ e :: es2)) id = some e := by
  rw [parseExisting_some]
  induction es1 with
  | nil =>
    simp only [List.nil_append, lookupLast,
      (lookupLast_eq_none_iff es2 id).mpr h2]
    rw [if_pos h1.symm]
  | cons a rest ih =>
    simp only [List.cons_append, lookupLast]
    have ih2 : lookupLast (rest.append (e :: es2)) id = some e := ih
    rw [ih2]

/-- C10 witness: of two records sharing identifier X, the later one is the
one the map returns, and the two records differ. -/
theorem c10_last_wins_witness :
    parseExisting (some [dupFirst, dupSecond]) ("X") = some dupSecond ∧
      dupFirst ≠ dupSecond :=
  ⟨c10_last_wins [dupFirst] [] dupSecond ("X") rfl
      (fun x hx => absurd hx (List.not_mem_nil x)),
    by decide⟩
